import Mathlib

/-!
Verification development for the mcp-observer-sdk run and policy lifecycle
manager. The definitions below are a shallow embedding of the Python source:

* `ActiveRun`, `RunManagerState` and the operations `resolve_or_create_run`,
  `close_run`, `sweep_expired_runs`, `create_new_run`, `close_run_internal`,
  `close_run_and_notify` embed `src/mcp_observer/run_manager.py`;
* `check_tracking_policy` embeds `MCPObserver._check_tracking_policy` from
  `src/mcp_observer/observer.py`;
* `async_wrapper_run` and `sync_wrapper_run` embed the control flow of
  `create_async_wrapper` and `create_sync_wrapper` from
  `src/mcp_observer/wrapper.py`.

Time values (both wall-clock datetimes and monotonic clock readings) are
modelled as integers; only their ordered additive structure is used by the
code. Clock readings, fresh uuid strings and network outcomes are passed in
explicitly as parameters, standing for the ambient calls to `datetime.now`,
`time.monotonic`, `uuid.uuid4` and `httpx` in the source.
-/

namespace MCPObs

/-- Embeds the dataclass `ActiveRun` of `run_manager.py`. -/
structure ActiveRun where
  run_id : String
  session_id : String
  started_at : Int
  last_seen_at : Int
  started_at_mono : Int
  last_seen_at_mono : Int
deriving DecidableEq, Repr

/-- Embeds `ActiveRun.is_timed_out`: in the source the method reads
`time.monotonic()` itself; here the reading is the explicit argument
`nowMono`. The comparison is the strict `elapsed_mono > timeout_seconds`
of the source. -/
def ActiveRun.is_timed_out (run : ActiveRun) (timeout_seconds nowMono : Int) : Bool :=
  decide (nowMono - run.last_seen_at_mono > timeout_seconds)

/-- Embeds the mutable state of `RunManager`: the dict `_active_runs`
(modelled as an association list with the Python dict update semantics,
see `dictSet` and `dictDel`) and the counter `_closed_runs_count`. -/
structure RunManagerState where
  active_runs : List (String × ActiveRun)
  closed_runs_count : Nat
deriving DecidableEq, Repr

/-- The state installed by `RunManager.__init__`: empty registry, zero
closed runs. -/
def init_state : RunManagerState := ⟨[], 0⟩

/-- Python dict lookup `m.get(k)` on the association-list model. -/
def dictGet {β : Type} (m : List (String × β)) (k : String) : Option β :=
  match m with
  | [] => none
  | (k', v) :: rest => if k' = k then some v else dictGet rest k

/-- Python dict assignment `m[k] = v`: replaces the value in place when the
key is present, appends at the end otherwise. -/
def dictSet {β : Type} (m : List (String × β)) (k : String) (v : β) : List (String × β) :=
  match m with
  | [] => [(k, v)]
  | (k', v') :: rest => if k' = k then (k, v) :: rest else (k', v') :: dictSet rest k v

/-- Python dict deletion `del m[k]`: removes the first entry with the key
(under the no-duplicate-keys invariant, the only one). -/
def dictDel {β : Type} (m : List (String × β)) (k : String) : List (String × β) :=
  match m with
  | [] => []
  | (k', v') :: rest => if k' = k then rest else (k', v') :: dictDel rest k

/-- The payload of `observer.notify_run_end` as invoked from
`_close_run_and_notify`. -/
structure RunEndNotification where
  run_id : String
  session_id : String
  ended_at : Int
  reason : String
deriving DecidableEq, Repr

/-- Observable events of the closing path: `closed` records the registry
removal plus counter increment performed by `_close_run_internal` (with the
`reason` string that the source logs), `notified` records one attempted
`notify_run_end` call and whether it succeeded. -/
inductive Event where
  | closed (run_id : String) (reason : String)
  | notified (n : RunEndNotification) (delivered : Bool)
deriving DecidableEq, Repr

/-- Embeds the Python idiom `notify_reason or reason` from
`_close_run_and_notify` (`or` falls through on `None` and on the empty
string). -/
def orElseStr (a : Option String) (b : String) : String :=
  match a with
  | some s => if s = "" then b else s
  | none => b

/-- Embeds `RunManager._create_new_run`: builds the `ActiveRun` with both
wall-clock fields set to `timestamp` and both monotonic fields set to
`nowMono`, and stores it under `session_id`. The generated
`str(uuid.uuid4())` is the explicit argument `run_id`. -/
def create_new_run (st : RunManagerState) (session_id : String)
    (timestamp nowMono : Int) (run_id : String) : RunManagerState × String :=
  let active_run : ActiveRun :=
    ⟨run_id, session_id, timestamp, timestamp, nowMono, nowMono⟩
  (⟨dictSet st.active_runs session_id active_run, st.closed_runs_count⟩, run_id)

/-- Embeds `RunManager._close_run_internal`: deletes the registry entry of
the run and increments `_closed_runs_count`. The duration computation of
the source only feeds a log line and is not part of the state. -/
def close_run_internal (st : RunManagerState) (active_run : ActiveRun) :
    RunManagerState :=
  ⟨dictDel st.active_runs active_run.session_id, st.closed_runs_count + 1⟩

/-- Embeds `RunManager._close_run_and_notify`. `ended_at` of `none` stands
for the `datetime.now(timezone.utc)` default taken at `now_wall`.
`observerPresent` models whether `self._observer` is set; `notifyOk` models
whether the `notify_run_end` call succeeds — on failure the source catches
the exception and only logs, so the returned state is the
`close_run_internal` result either way. -/
def close_run_and_notify (st : RunManagerState) (active_run : ActiveRun)
    (reason : String) (ended_at : Option Int) (now_wall : Int)
    (notify_reason : Option String) (observerPresent notifyOk : Bool) :
    RunManagerState × List Event :=
  let e := ended_at.getD now_wall
  let st1 := close_run_internal st active_run
  if observerPresent then
    let n : RunEndNotification :=
      ⟨active_run.run_id, active_run.session_id, e, orElseStr notify_reason reason⟩
    (st1, [Event.closed active_run.run_id reason, Event.notified n notifyOk])
  else
    (st1, [Event.closed active_run.run_id reason])

/-- Embeds `RunManager.resolve_or_create_run`. The wall-clock call
timestamp is `timestamp`; the `time.monotonic()` readings taken inside the
critical section are the argument `nowMono`; the fresh uuid is
`fresh_run_id`. Returns the new state, the close-path events, and the
`(run_id, is_new_run)` pair of the source. -/
def resolve_or_create_run (st : RunManagerState) (session_id : String)
    (timestamp nowMono : Int) (fresh_run_id : String)
    (run_timeout_seconds : Int) (observerPresent notifyOk : Bool) :
    RunManagerState × List Event × String × Bool :=
  match dictGet st.active_runs session_id with
  | none =>
      let c := create_new_run st session_id timestamp nowMono fresh_run_id
      (c.1, [], c.2, true)
  | some active_run =>
      if active_run.is_timed_out run_timeout_seconds nowMono then
        let c1 := close_run_and_notify st active_run "timeout" (some timestamp)
          timestamp (some "timeout") observerPresent notifyOk
        let c2 := create_new_run c1.1 session_id timestamp nowMono fresh_run_id
        (c2.1, c1.2, c2.2, true)
      else
        let updated : ActiveRun :=
          { active_run with last_seen_at := timestamp, last_seen_at_mono := nowMono }
        (⟨dictSet st.active_runs session_id updated, st.closed_runs_count⟩,
          [], active_run.run_id, false)

/-- The scan of `RunManager.close_run`: first active run whose `run_id`
matches, in registry iteration order. -/
def find_run_by_id (m : List (String × ActiveRun)) (run_id : String) :
    Option ActiveRun :=
  match m with
  | [] => none
  | (_, r) :: rest => if r.run_id = run_id then some r else find_run_by_id rest run_id

/-- Embeds `RunManager.close_run`: closes the matching run and returns
`true`, or returns `false` (logging a warning) when no active run has the
given id. -/
def close_run (st : RunManagerState) (run_id : String) (reason : String)
    (ended_at : Option Int) (now_wall : Int) (observerPresent notifyOk : Bool) :
    RunManagerState × List Event × Bool :=
  match find_run_by_id st.active_runs run_id with
  | some active_run =>
      let c := close_run_and_notify st active_run reason ended_at now_wall none
        observerPresent notifyOk
      (c.1, c.2, true)
  | none => (st, [], false)

/-- One iteration of the closing loop of `_sweep_expired_runs`: the run is
closed with reason `"timeout_sweep"` and `notify_reason="timeout"`, exactly
as the source passes them. -/
def sweep_step (now_wall : Int) (observerPresent notifyOk : Bool)
    (acc : RunManagerState × List Event) (run : ActiveRun) :
    RunManagerState × List Event :=
  let c := close_run_and_notify acc.1 run "timeout_sweep" (some now_wall)
    now_wall (some "timeout") observerPresent notifyOk
  (c.1, acc.2 ++ c.2)

/-- Embeds `RunManager._sweep_expired_runs`: collects the timed-out runs,
then closes each via `sweep_step`. `now_wall` stands for the
`datetime.now(timezone.utc)` readings taken per closed run. -/
def sweep_expired_runs (st : RunManagerState) (nowMono now_wall : Int)
    (run_timeout_seconds : Int) (observerPresent notifyOk : Bool) :
    RunManagerState × List Event :=
  let expired := (st.active_runs.filter
    (fun p => p.2.is_timed_out run_timeout_seconds nowMono)).map Prod.snd
  expired.foldl (sweep_step now_wall observerPresent notifyOk) (st, [])

/-- The policy cache `MCPObserver._policy_cache`: maps a tool name to the
pair `(can_store_full, expires_at)`. -/
abbrev PolicyCache := List (String × (Bool × Int))

/-- Outcome of the policy HTTP request in `_check_tracking_policy`. A
`success` carries the optional `can_store_full` and `cache_ttl` fields of
the JSON body (the source defaults them with `data.get`); the remaining
constructors are the non-200 status branch and the three `except`
branches. -/
inductive FetchOutcome where
  | success (can_store_full : Option Bool) (cache_ttl : Option Int)
  | httpError (status : Nat)
  | timedOut
  | requestError
  | unexpectedError
deriving DecidableEq, Repr

/-- Every outcome of the fetch other than a 200 response. -/
def FetchOutcome.isFailure : FetchOutcome → Bool
  | .success _ _ => false
  | _ => true

/-- The fetch portion of `_check_tracking_policy` (the `try` block from the
`httpx.Client` call down, plus the `except` handlers): on a 200 response
the decision is cached with expiry `now + cache_ttl` (TTL defaulting to
3600) and returned; every other outcome returns `False` and leaves the
cache untouched. The third component counts network fetches performed. -/
def fetch_and_cache (cache : PolicyCache) (tool_name : String) (now : Int)
    (fetch : FetchOutcome) : Bool × PolicyCache × Nat :=
  match fetch with
  | .success cs ttl =>
      let can_store := cs.getD false
      let cache_ttl := ttl.getD 3600
      (can_store, dictSet cache tool_name (can_store, now + cache_ttl), 1)
  | _ => (false, cache, 1)

/-- Embeds `MCPObserver._check_tracking_policy`: a cached entry whose
expiry is still strictly in the future is returned with no fetch;
otherwise the fetch runs as in `fetch_and_cache`. The readings of
`datetime.now().timestamp()` are the argument `now`; the network outcome
is the argument `fetch`. -/
def check_tracking_policy (cache : PolicyCache) (tool_name : String) (now : Int)
    (fetch : FetchOutcome) : Bool × PolicyCache × Nat :=
  match dictGet cache tool_name with
  | some entry =>
      if now < entry.2 then (entry.1, cache, 0)
      else fetch_and_cache cache tool_name now fetch
  | none => fetch_and_cache cache tool_name now fetch

/-- Cache entry for `tool_name` is absent or already expired at `now` — the
condition under which `_check_tracking_policy` reaches its `try` block. -/
def cacheMissOrExpired (cache : PolicyCache) (tool_name : String) (now : Int) : Prop :=
  match dictGet cache tool_name with
  | some entry => entry.2 ≤ now
  | none => True

/-- Telemetry-relevant events of one wrapped call, from `wrapper.py`.
`record_call_awaited` is an `await observer.record_call(...)` that actually
runs the coroutine to completion; `record_call_not_awaited` is a bare
`observer.record_call(...)` without `await`, which in Python only
constructs a coroutine object that is never executed, so no call record is
submitted. -/
inductive WrapEvent where
  | record_call_awaited (error : Option String)
  | record_call_not_awaited (error : Option String)
deriving DecidableEq, Repr

/-- Embeds the wrapper body built by `create_async_wrapper`: the wrapped
function either returns a value or raises (`funcResult`); on success the
call record is awaited and the value returned, on an exception the call
record is awaited (line `await observer.record_call(...)` of the `except`
branch) and then the same exception is re-raised. -/
def async_wrapper_run (funcResult : Except String String) :
    Except String String × List WrapEvent :=
  match funcResult with
  | .ok v => (.ok v, [.record_call_awaited none])
  | .error e => (.error e, [.record_call_awaited (some e)])

/-- Embeds the wrapper body built by `create_sync_wrapper`. The body runs
`result = await func(...)`: when the wrapped function raises, the
exception enters the `except` branch, whose `observer.record_call(...)`
lacks `await` — the coroutine is created but never executed — and the same
exception is re-raised. When the function returns, the returned value is
awaited; `resultAwaitable` says whether it is an awaitable (a plain sync
return value is not, making the `await` itself raise a `TypeError` that
takes the same un-awaited `except` branch). -/
def sync_wrapper_run (funcResult : Except String String)
    (resultAwaitable : Bool) : Except String String × List WrapEvent :=
  match funcResult with
  | .ok v =>
      if resultAwaitable then (.ok v, [.record_call_awaited none])
      else (.error "TypeError", [.record_call_not_awaited (some "TypeError")])
  | .error e => (.error e, [.record_call_not_awaited (some e)])

/-- One registry-mutating operation of the lifecycle manager, with the
ambient inputs (clock readings, fresh id, observer and notification
outcomes) it consumes. -/
inductive RunOp where
  | resolve (session_id : String) (timestamp nowMono : Int) (fresh_run_id : String)
      (observerPresent notifyOk : Bool)
  | close (run_id reason : String) (ended_at : Option Int) (now_wall : Int)
      (observerPresent notifyOk : Bool)
  | sweep (nowMono now_wall : Int) (observerPresent notifyOk : Bool)

/-- State transition of one operation. -/
def apply_run_op (run_timeout_seconds : Int) (st : RunManagerState) : RunOp → RunManagerState
  | .resolve sid ts mono fid obs ok =>
      (resolve_or_create_run st sid ts mono fid run_timeout_seconds obs ok).1
  | .close rid reason e nw obs ok => (close_run st rid reason e nw obs ok).1
  | .sweep mono nw obs ok =>
      (sweep_expired_runs st mono nw run_timeout_seconds obs ok).1

/-- Registry state after an arbitrary sequence of operations, starting
from the freshly constructed manager. -/
def run_ops (run_timeout_seconds : Int) (ops : List RunOp) : RunManagerState :=
  ops.foldl (apply_run_op run_timeout_seconds) init_state

/-- Well-formedness of the registry, maintained by the source by
construction of the Python dict: session keys are distinct, and every
stored run records the session it is keyed under. -/
def RegistryWF (m : List (String × ActiveRun)) : Prop :=
  (m.map Prod.fst).Nodup ∧ ∀ p ∈ m, (p : String × ActiveRun).2.session_id = p.1

/-- Distinctness of the run ids in the registry — uuids are generated
fresh and never reused. -/
def runIdsNodup (m : List (String × ActiveRun)) : Prop :=
  (m.map (fun p => p.2.run_id)).Nodup

/-- Inputs of one `resolve_or_create_run` call in a single-session call
sequence. -/
structure ResolveCall where
  timestamp : Int
  nowMono : Int
  fresh_run_id : String
deriving DecidableEq, Repr

/-- Fold step applying one resolve call for a fixed session. -/
def apply_resolve (sid : String) (tmo : Int) (obs ok : Bool)
    (st : RunManagerState) (c : ResolveCall) : RunManagerState :=
  (resolve_or_create_run st sid c.timestamp c.nowMono c.fresh_run_id tmo obs ok).1

/-- The pair of last-activity timestamps (wall-clock, monotonic) that the
registry holds for `sid` after the given calls, starting from the fresh
manager. -/
def lastSeenAfter (sid : String) (tmo : Int) (obs ok : Bool)
    (calls : List ResolveCall) : Option (Int × Int) :=
  (dictGet ((calls.foldl (apply_resolve sid tmo obs ok) init_state).active_runs) sid).map
    (fun r => (r.last_seen_at, r.last_seen_at_mono))

/-- Chronological order of the call inputs: both the wall-clock timestamps
and the monotonic readings are non-decreasing along the sequence. -/
def stampsMono (calls : List ResolveCall) : Prop :=
  calls.Pairwise (fun a b => a.timestamp ≤ b.timestamp ∧ a.nowMono ≤ b.nowMono)

/-- The reasons carried by the notifications among a list of events. -/
def notifyReasons (evts : List Event) : List String :=
  evts.filterMap (fun ev => match ev with
    | .notified n _ => some n.reason
    | _ => none)

/-- A one-run registry used to evaluate the sweeper on concrete input. -/
def sweepDemoState : RunManagerState :=
  ⟨[("s1", ⟨"r1", "s1", 0, 0, 0, 0⟩)], 0⟩

/-- A concrete active run used to evaluate the lifecycle operations. -/
def demoRun : ActiveRun := ⟨"r0", "s1", 0, 0, 0, 0⟩

/-- A one-run registry holding `demoRun`. -/
def demoState : RunManagerState := ⟨[("s1", demoRun)], 0⟩

/-- The property every event emitted by the sweeper satisfies: close
records carry the internal reason `"timeout_sweep"`, notifications carry
the reason `"timeout"`. -/
def sweepEventOK : Event → Prop
  | .closed _ reason => reason = "timeout_sweep"
  | .notified n _ => n.reason = "timeout"

/-! Association-list lemmas mirroring the Python dict semantics. -/

theorem dictGet_dictSet_self {β : Type} (m : List (String × β)) (k : String) (v : β) :
    dictGet (dictSet m k v) k = some v := by
  induction m with
  | nil => simp [dictSet, dictGet]
  | cons p rest ih =>
    obtain ⟨k', v'⟩ := p
    by_cases h : k' = k
    · simp [dictSet, dictGet, h]
    · simp [dictSet, dictGet, h, ih]

theorem dictGet_dictSet_ne {β : Type} (m : List (String × β)) (k k' : String) (v : β)
    (h : k' ≠ k) : dictGet (dictSet m k v) k' = dictGet m k' := by
  induction m with
  | nil => simp [dictSet, dictGet, Ne.symm h]
  | cons p rest ih =>
    obtain ⟨k₀, v₀⟩ := p
    by_cases hk : k₀ = k
    · subst hk
      simp [dictSet, dictGet, Ne.symm h]
    · simp [dictSet, dictGet, hk, ih]

theorem dictGet_dictDel_ne {β : Type} (m : List (String × β)) (k k' : String)
    (h : k' ≠ k) : dictGet (dictDel m k) k' = dictGet m k' := by
  induction m with
  | nil => simp [dictDel]
  | cons p rest ih =>
    obtain ⟨k₀, v₀⟩ := p
    by_cases hk : k₀ = k
    · subst hk
      simp [dictDel, dictGet, Ne.symm h]
    · simp [dictDel, dictGet, hk, ih]

theorem dictGet_eq_none_iff {β : Type} (m : List (String × β)) (k : String) :
    dictGet m k = none ↔ k ∉ m.map Prod.fst := by
  induction m with
  | nil => simp [dictGet]
  | cons p rest ih =>
    obtain ⟨k₀, v₀⟩ := p
    by_cases hk : k₀ = k
    · simp [dictGet, hk]
    · simp [dictGet, hk, ih, Ne.symm hk]

theorem dictGet_mem {β : Type} (m : List (String × β)) (k : String) (v : β)
    (h : dictGet m k = some v) : (k, v) ∈ m := by
  induction m with
  | nil => simp [dictGet] at h
  | cons p rest ih =>
    obtain ⟨k₀, v₀⟩ := p
    by_cases hk : k₀ = k
    · subst hk
      simp [dictGet] at h
      simp [h]
    · simp [dictGet, hk] at h
      exact List.mem_cons_of_mem _ (ih h)

theorem map_fst_dictSet {β : Type} (m : List (String × β)) (k : String) (v : β) :
    (dictSet m k v).map Prod.fst =
      if (dictGet m k).isSome then m.map Prod.fst else m.map Prod.fst ++ [k] := by
  induction m with
  | nil => simp [dictSet, dictGet]
  | cons p rest ih =>
    obtain ⟨k₀, v₀⟩ := p
    by_cases hk : k₀ = k
    · simp [dictSet, dictGet, hk]
    · simp [dictSet, dictGet, hk, ih]
      by_cases hs : (dictGet rest k).isSome <;> simp [hs]

theorem map_fst_dictSet_of_get {β : Type} (m : List (String × β)) (k : String)
    (v v₀ : β) (h : dictGet m k = some v₀) :
    (dictSet m k v).map Prod.fst = m.map Prod.fst := by
  rw [map_fst_dictSet]
  simp [h]

theorem dictDel_sublist {β : Type} (m : List (String × β)) (k : String) :
    (dictDel m k).Sublist m := by
  induction m with
  | nil => simp [dictDel]
  | cons p rest ih =>
    obtain ⟨k₀, v₀⟩ := p
    by_cases hk : k₀ = k
    · simp only [dictDel]
      rw [if_pos hk]
      exact List.sublist_cons_self (k₀, v₀) rest
    · simp only [dictDel]
      rw [if_neg hk]
      exact List.Sublist.cons₂ (k₀, v₀) ih

theorem mem_dictDel {β : Type} (m : List (String × β)) (k : String)
    (p : String × β) (h : p ∈ dictDel m k) : p ∈ m :=
  (dictDel_sublist m k).mem h

theorem mem_dictSet {β : Type} (m : List (String × β)) (k : String) (v : β)
    (p : String × β) (h : p ∈ dictSet m k v) : p = (k, v) ∨ p ∈ m := by
  induction m with
  | nil => simpa [dictSet] using h
  | cons q rest ih =>
    obtain ⟨k₀, v₀⟩ := q
    by_cases hk : k₀ = k
    · simp [dictSet, hk] at h
      rcases h with h | h
      · exact Or.inl h
      · exact Or.inr (List.mem_cons_of_mem _ h)
    · simp [dictSet, hk] at h
      rcases h with h | h
      · exact Or.inr (by simp [h])
      · rcases ih h with h' | h'
        · exact Or.inl h'
        · exact Or.inr (List.mem_cons_of_mem _ h')

theorem nodup_map_fst_dictSet {β : Type} (m : List (String × β)) (k : String) (v : β)
    (h : (m.map Prod.fst).Nodup) : ((dictSet m k v).map Prod.fst).Nodup := by
  rw [map_fst_dictSet]
  by_cases hs : (dictGet m k).isSome
  · simpa [hs] using h
  · have hk : k ∉ m.map Prod.fst := by
      rw [← dictGet_eq_none_iff]
      exact Option.not_isSome_iff_eq_none.mp hs
    simp [hs, List.nodup_append, h, hk]

theorem nodup_map_fst_dictDel {β : Type} (m : List (String × β)) (k : String)
    (h : (m.map Prod.fst).Nodup) : ((dictDel m k).map Prod.fst).Nodup :=
  (((dictDel_sublist m k).map Prod.fst).nodup h)

/-! Lemmas on the closing path. -/

theorem close_run_and_notify_state (st : RunManagerState) (run : ActiveRun)
    (reason : String) (e : Option Int) (nw : Int) (nr : Option String)
    (obs ok : Bool) :
    (close_run_and_notify st run reason e nw nr obs ok).1 = close_run_internal st run := by
  cases obs <;> rfl

theorem close_run_and_notify_events (st : RunManagerState) (run : ActiveRun)
    (reason : String) (e : Option Int) (nw : Int) (nr : Option String)
    (obs ok : Bool) :
    (close_run_and_notify st run reason e nw nr obs ok).2 =
      if obs then
        [Event.closed run.run_id reason,
         Event.notified ⟨run.run_id, run.session_id, e.getD nw, orElseStr nr reason⟩ ok]
      else [Event.closed run.run_id reason] := by
  cases obs <;> rfl

/-! Registry well-formedness is preserved by every operation. -/

theorem registryWF_dictSet (m : List (String × ActiveRun)) (k : String)
    (v : ActiveRun) (hwf : RegistryWF m) (hv : v.session_id = k) :
    RegistryWF (dictSet m k v) := by
  refine ⟨nodup_map_fst_dictSet m k v hwf.1, ?_⟩
  intro p hp
  rcases mem_dictSet m k v p hp with h | h
  · subst h
    exact hv
  · exact hwf.2 p h

theorem registryWF_dictDel (m : List (String × ActiveRun)) (k : String)
    (hwf : RegistryWF m) : RegistryWF (dictDel m k) :=
  ⟨nodup_map_fst_dictDel m k hwf.1, fun p hp => hwf.2 p (mem_dictDel m k p hp)⟩

theorem registryWF_create_new_run (st : RunManagerState) (sid : String)
    (ts mono : Int) (fid : String) (hwf : RegistryWF st.active_runs) :
    RegistryWF (create_new_run st sid ts mono fid).1.active_runs :=
  registryWF_dictSet st.active_runs sid _ hwf rfl

theorem registryWF_close_run_and_notify (st : RunManagerState) (run : ActiveRun)
    (reason : String) (e : Option Int) (nw : Int) (nr : Option String)
    (obs ok : Bool) (hwf : RegistryWF st.active_runs) :
    RegistryWF (close_run_and_notify st run reason e nw nr obs ok).1.active_runs := by
  rw [close_run_and_notify_state]
  exact registryWF_dictDel st.active_runs run.session_id hwf

theorem registryWF_resolve_or_create_run (st : RunManagerState) (sid : String)
    (ts mono : Int) (fid : String) (tmo : Int) (obs ok : Bool)
    (hwf : RegistryWF st.active_runs) :
    RegistryWF (resolve_or_create_run st sid ts mono fid tmo obs ok).1.active_runs := by
  unfold resolve_or_create_run
  cases hget : dictGet st.active_runs sid with
  | none =>
    exact registryWF_create_new_run st sid ts mono fid hwf
  | some run =>
    by_cases ht : run.is_timed_out tmo mono
    · simp only [ht, if_true]
      exact registryWF_create_new_run _ sid ts mono fid
        (registryWF_close_run_and_notify st run _ _ _ _ obs ok hwf)
    · simp only [ht, if_false, Bool.false_eq_true]
      have hsid : run.session_id = sid := hwf.2 (sid, run) (dictGet_mem _ _ _ hget)
      exact registryWF_dictSet st.active_runs sid _ hwf hsid

theorem registryWF_close_run (st : RunManagerState) (rid reason : String)
    (e : Option Int) (nw : Int) (obs ok : Bool) (hwf : RegistryWF st.active_runs) :
    RegistryWF (close_run st rid reason e nw obs ok).1.active_runs := by
  unfold close_run
  cases hfind : find_run_by_id st.active_runs rid with
  | none => exact hwf
  | some run => exact registryWF_close_run_and_notify st run reason e nw none obs ok hwf

theorem registryWF_sweep_foldl (nw : Int) (obs ok : Bool) :
    ∀ (l : List ActiveRun) (acc : RunManagerState × List Event),
      RegistryWF acc.1.active_runs →
      RegistryWF ((l.foldl (sweep_step nw obs ok) acc).1).active_runs := by
  intro l
  induction l with
  | nil => intro acc h; exact h
  | cons run rest ih =>
    intro acc h
    exact ih _ (registryWF_close_run_and_notify acc.1 run _ _ _ _ obs ok h)

theorem registryWF_sweep_expired_runs (st : RunManagerState) (mono nw tmo : Int)
    (obs ok : Bool) (hwf : RegistryWF st.active_runs) :
    RegistryWF (sweep_expired_runs st mono nw tmo obs ok).1.active_runs :=
  registryWF_sweep_foldl nw obs ok _ (st, []) hwf

theorem registryWF_apply_run_op (tmo : Int) (st : RunManagerState) (op : RunOp)
    (hwf : RegistryWF st.active_runs) :
    RegistryWF (apply_run_op tmo st op).active_runs := by
  cases op with
  | resolve sid ts mono fid obs ok =>
    exact registryWF_resolve_or_create_run st sid ts mono fid tmo obs ok hwf
  | close rid reason e nw obs ok =>
    exact registryWF_close_run st rid reason e nw obs ok hwf
  | sweep mono nw obs ok =>
    exact registryWF_sweep_expired_runs st mono nw tmo obs ok hwf

theorem registryWF_run_ops (tmo : Int) (ops : List RunOp) :
    RegistryWF (run_ops tmo ops).active_runs := by
  have main : ∀ (l : List RunOp) (st : RunManagerState), RegistryWF st.active_runs →
      RegistryWF (l.foldl (apply_run_op tmo) st).active_runs := by
    intro l
    induction l with
    | nil => intro st h; exact h
    | cons op rest ih =>
      intro st h
      exact ih _ (registryWF_apply_run_op tmo st op h)
  exact main ops init_state ⟨List.nodup_nil, by intro p hp; cases hp⟩

theorem length_filter_session_le_one (m : List (String × ActiveRun))
    (hwf : RegistryWF m) (sid : String) :
    (m.filter (fun p => p.2.session_id == sid)).length ≤ 1 := by
  induction m with
  | nil => simp
  | cons p rest ih =>
    obtain ⟨k, r⟩ := p
    have hkeys : k ∉ rest.map Prod.fst := by
      have := hwf.1
      simp only [List.map_cons, List.nodup_cons] at this
      exact this.1
    have hwfrest : RegistryWF rest := by
      refine ⟨?_, ?_⟩
      · have := hwf.1
        simp only [List.map_cons, List.nodup_cons] at this
        exact this.2
      · intro q hq
        exact hwf.2 q (List.mem_cons_of_mem _ hq)
    have hkr : r.session_id = k := hwf.2 (k, r) (List.mem_cons_self _ _)
    by_cases hmatch : r.session_id == sid
    · have hks : k = sid := by
        have := of_decide_eq_true hmatch
        rw [← hkr]
        exact this.symm ▸ rfl
      have hrest : rest.filter (fun p => p.2.session_id == sid) = [] := by
        rw [List.filter_eq_nil_iff]
        intro q hq
        have hqk : q.2.session_id = q.1 := hwfrest.2 q hq
        have hqne : q.1 ≠ sid := by
          intro heq
          exact hkeys (hks ▸ heq ▸ List.mem_map_of_mem Prod.fst hq)
        simp [hqk, hqne]
      simp [List.filter_cons, hmatch, hrest]
    · simpa [List.filter_cons, hmatch] using ih hwfrest

/-! Lemmas for the explicit close path. -/

theorem close_run_of_find_none (st : RunManagerState) (rid reason : String)
    (e : Option Int) (nw : Int) (obs ok : Bool)
    (h : find_run_by_id st.active_runs rid = none) :
    close_run st rid reason e nw obs ok = (st, [], false) := by
  unfold close_run
  rw [h]

theorem find_run_by_id_mem (m : List (String × ActiveRun)) (rid : String)
    (run : ActiveRun) (h : find_run_by_id m rid = some run) :
    run.run_id = rid ∧ ∃ k, (k, run) ∈ m := by
  induction m with
  | nil => simp [find_run_by_id] at h
  | cons p rest ih =>
    obtain ⟨k₀, r₀⟩ := p
    by_cases hr : r₀.run_id = rid
    · simp [find_run_by_id, hr] at h
      subst h
      exact ⟨hr, k₀, List.mem_cons_self _ _⟩
    · simp [find_run_by_id, hr] at h
      obtain ⟨hid, k, hk⟩ := ih h
      exact ⟨hid, k, List.mem_cons_of_mem _ hk⟩

theorem find_run_by_id_eq_none (m : List (String × ActiveRun)) (rid : String)
    (h : ∀ p ∈ m, (p : String × ActiveRun).2.run_id ≠ rid) :
    find_run_by_id m rid = none := by
  induction m with
  | nil => rfl
  | cons p rest ih =>
    obtain ⟨k₀, r₀⟩ := p
    have hr : r₀.run_id ≠ rid := h (k₀, r₀) (List.mem_cons_self _ _)
    simp only [find_run_by_id]
    rw [if_neg hr]
    exact ih (fun q hq => h q (List.mem_cons_of_mem _ hq))

theorem find_run_by_id_dictDel_none (m : List (String × ActiveRun)) (rid : String)
    (run : ActiveRun) (hwf : RegistryWF m) (hids : runIdsNodup m)
    (h : find_run_by_id m rid = some run) :
    find_run_by_id (dictDel m run.session_id) rid = none := by
  induction m with
  | nil => simp [find_run_by_id] at h
  | cons p rest ih =>
    obtain ⟨k₀, r₀⟩ := p
    have hkeys : k₀ ∉ rest.map Prod.fst := by
      have := hwf.1
      simp only [List.map_cons, List.nodup_cons] at this
      exact this.1
    have hwfrest : RegistryWF rest := by
      refine ⟨?_, fun q hq => hwf.2 q (List.mem_cons_of_mem _ hq)⟩
      have := hwf.1
      simp only [List.map_cons, List.nodup_cons] at this
      exact this.2
    have hidsrest : runIdsNodup rest := by
      have := hids
      unfold runIdsNodup at this ⊢
      simp only [List.map_cons, List.nodup_cons] at this
      exact this.2
    have hid0 : r₀.run_id ∉ rest.map (fun p => p.2.run_id) := by
      have := hids
      unfold runIdsNodup at this
      simp only [List.map_cons, List.nodup_cons] at this
      exact this.1
    have hk₀ : r₀.session_id = k₀ := hwf.2 (k₀, r₀) (List.mem_cons_self _ _)
    by_cases hr : r₀.run_id = rid
    · have hrun : run = r₀ := by
        simp [find_run_by_id, hr] at h
        exact h.symm
      subst hrun
      simp only [dictDel]
      rw [if_pos (hk₀ ▸ rfl)]
      refine find_run_by_id_eq_none rest rid ?_
      intro q hq hqid
      exact hid0 (hr ▸ hqid ▸ List.mem_map_of_mem (fun p => p.2.run_id) hq)
    · simp only [find_run_by_id] at h
      rw [if_neg hr] at h
      obtain ⟨_, k, hk⟩ := find_run_by_id_mem rest rid run h
      have hks : run.session_id = k := hwfrest.2 (k, run) hk
      have hkne : k₀ ≠ run.session_id := by
        intro heq
        exact hkeys (heq ▸ hks ▸ List.mem_map_of_mem Prod.fst hk)
      simp only [dictDel]
      rw [if_neg hkne]
      simp only [find_run_by_id]
      rw [if_neg hr]
      exact ih hwfrest hidsrest h

/-! Lemmas for the policy cache. -/

theorem check_tracking_policy_of_missOrExpired (cache : PolicyCache)
    (tool : String) (now : Int) (f : FetchOutcome)
    (h : cacheMissOrExpired cache tool now) :
    check_tracking_policy cache tool now f = fetch_and_cache cache tool now f := by
  unfold cacheMissOrExpired at h
  unfold check_tracking_policy
  cases hget : dictGet cache tool with
  | none => rfl
  | some entry =>
    rw [hget] at h
    have h' : entry.2 ≤ now := h
    show (if now < entry.2 then (entry.1, cache, 0) else fetch_and_cache cache tool now f) =
      fetch_and_cache cache tool now f
    rw [if_neg (not_lt.mpr h')]

theorem fetch_and_cache_count (cache : PolicyCache) (tool : String) (now : Int)
    (f : FetchOutcome) : (fetch_and_cache cache tool now f).2.2 = 1 := by
  cases f <;> rfl

/-! Lemmas for the single-session last-activity trace. -/

theorem resolve_last_seen (st : RunManagerState) (sid : String) (ts mono : Int)
    (fid : String) (tmo : Int) (obs ok : Bool) :
    ∃ r', dictGet (resolve_or_create_run st sid ts mono fid tmo obs ok).1.active_runs sid =
        some r' ∧ r'.last_seen_at = ts ∧ r'.last_seen_at_mono = mono := by
  unfold resolve_or_create_run
  cases hget : dictGet st.active_runs sid with
  | none =>
    exact ⟨_, dictGet_dictSet_self _ _ _, rfl, rfl⟩
  | some run =>
    by_cases ht : run.is_timed_out tmo mono
    · simp only [ht, if_true]
      exact ⟨_, dictGet_dictSet_self _ _ _, rfl, rfl⟩
    · simp only [ht, if_false, Bool.false_eq_true]
      exact ⟨_, dictGet_dictSet_self _ _ _, rfl, rfl⟩

theorem lastSeenAfter_append (sid : String) (tmo : Int) (obs ok : Bool)
    (calls : List ResolveCall) (c : ResolveCall) :
    lastSeenAfter sid tmo obs ok (calls ++ [c]) = some (c.timestamp, c.nowMono) := by
  unfold lastSeenAfter
  rw [List.foldl_append]
  simp only [List.foldl_cons, List.foldl_nil]
  obtain ⟨r', hget, h1, h2⟩ := resolve_last_seen
    (calls.foldl (apply_resolve sid tmo obs ok) init_state) sid c.timestamp c.nowMono
    c.fresh_run_id tmo obs ok
  rw [show apply_resolve sid tmo obs ok (calls.foldl (apply_resolve sid tmo obs ok) init_state) c =
    (resolve_or_create_run (calls.foldl (apply_resolve sid tmo obs ok) init_state) sid
      c.timestamp c.nowMono c.fresh_run_id tmo obs ok).1 from rfl]
  rw [hget]
  simp [h1, h2]

/-! Lemmas for the sweeper event trace. -/

theorem sweepEventOK_close_run_and_notify (st : RunManagerState) (run : ActiveRun)
    (nw : Int) (obs ok : Bool) :
    ∀ ev ∈ (close_run_and_notify st run "timeout_sweep" (some nw) nw
      (some "timeout") obs ok).2, sweepEventOK ev := by
  intro ev hev
  rw [close_run_and_notify_events] at hev
  cases obs with
  | false =>
    simp at hev
    subst hev
    exact rfl
  | true =>
    simp at hev
    rcases hev with hev | hev <;> subst hev
    · exact rfl
    · show (RunEndNotification.mk run.run_id run.session_id ((some nw).getD nw)
        (orElseStr (some "timeout") "timeout_sweep")).reason = "timeout"
      rfl

theorem sweep_foldl_events (nw : Int) (obs ok : Bool) :
    ∀ (l : List ActiveRun) (acc : RunManagerState × List Event),
      (∀ ev ∈ acc.2, sweepEventOK ev) →
      ∀ ev ∈ (l.foldl (sweep_step nw obs ok) acc).2, sweepEventOK ev := by
  intro l
  induction l with
  | nil => intro acc h; exact h
  | cons run rest ih =>
    intro acc h
    refine ih _ ?_
    intro ev hev
    simp only [sweep_step] at hev
    rcases List.mem_append.mp hev with hev | hev
    · exact h ev hev
    · exact sweepEventOK_close_run_and_notify acc.1 run nw obs ok ev hev

/-! Claim theorems. -/

/-- C1: `resolve_or_create_run(session_id, now)` behaves per case. With no
active run for the session, a fresh run is created (both wall-clock and
both monotonic timestamps stamped, inserted into the registry) and
`(run_id, true)` is returned. With an active run whose monotonic idle
duration strictly exceeds the timeout, that run is closed with reason
`"timeout"` and a new run is created and returned as `(new_run_id, true)`.
Otherwise — including the case where the idle duration equals the timeout
exactly — the existing run has both last-activity timestamps refreshed and
`(existing_run_id, false)` is returned. -/
theorem resolve_or_create_run_spec (st : RunManagerState) (sid : String)
    (ts mono : Int) (fid : String) (tmo : Int) (obs ok : Bool) :
    (dictGet st.active_runs sid = none →
      (resolve_or_create_run st sid ts mono fid tmo obs ok).2.2.1 = fid ∧
      (resolve_or_create_run st sid ts mono fid tmo obs ok).2.2.2 = true ∧
      (resolve_or_create_run st sid ts mono fid tmo obs ok).2.1 = [] ∧
      dictGet (resolve_or_create_run st sid ts mono fid tmo obs ok).1.active_runs sid =
        some ⟨fid, sid, ts, ts, mono, mono⟩ ∧
      (resolve_or_create_run st sid ts mono fid tmo obs ok).1.closed_runs_count =
        st.closed_runs_count) ∧
    (∀ run, dictGet st.active_runs sid = some run →
      mono - run.last_seen_at_mono > tmo →
      (resolve_or_create_run st sid ts mono fid tmo obs ok).2.2.1 = fid ∧
      (resolve_or_create_run st sid ts mono fid tmo obs ok).2.2.2 = true ∧
      Event.closed run.run_id "timeout" ∈
        (resolve_or_create_run st sid ts mono fid tmo obs ok).2.1 ∧
      dictGet (resolve_or_create_run st sid ts mono fid tmo obs ok).1.active_runs sid =
        some ⟨fid, sid, ts, ts, mono, mono⟩ ∧
      (resolve_or_create_run st sid ts mono fid tmo obs ok).1.closed_runs_count =
        st.closed_runs_count + 1) ∧
    (∀ run, dictGet st.active_runs sid = some run →
      mono - run.last_seen_at_mono ≤ tmo →
      (resolve_or_create_run st sid ts mono fid tmo obs ok).2.2.1 = run.run_id ∧
      (resolve_or_create_run st sid ts mono fid tmo obs ok).2.2.2 = false ∧
      (resolve_or_create_run st sid ts mono fid tmo obs ok).2.1 = [] ∧
      dictGet (resolve_or_create_run st sid ts mono fid tmo obs ok).1.active_runs sid =
        some { run with last_seen_at := ts, last_seen_at_mono := mono }) := by
  refine ⟨?_, ?_, ?_⟩
  · intro h
    simp [resolve_or_create_run, h, create_new_run, dictGet_dictSet_self]
  · intro run h htmo
    have hb : run.is_timed_out tmo mono = true := by
      simp only [ActiveRun.is_timed_out, decide_eq_true_eq]
      exact htmo
    simp only [resolve_or_create_run, h, hb, if_true]
    refine ⟨by trivial, by trivial, ?_, ?_, ?_⟩
    · rw [close_run_and_notify_events]
      cases obs <;> simp
    · exact dictGet_dictSet_self _ _ _
    · show (create_new_run (close_run_and_notify st run "timeout" (some ts) ts
        (some "timeout") obs ok).1 sid ts mono fid).1.closed_runs_count =
        st.closed_runs_count + 1
      rw [show (create_new_run (close_run_and_notify st run "timeout" (some ts) ts
        (some "timeout") obs ok).1 sid ts mono fid).1.closed_runs_count =
        (close_run_and_notify st run "timeout" (some ts) ts
          (some "timeout") obs ok).1.closed_runs_count from rfl]
      rw [close_run_and_notify_state]
      rfl
  · intro run h hle
    have hb : run.is_timed_out tmo mono = false := by
      simp only [ActiveRun.is_timed_out, decide_eq_false_iff_not]
      exact not_lt.mpr hle
    simp only [resolve_or_create_run, h, hb, if_false, Bool.false_eq_true]
    exact ⟨by trivial, by trivial, by trivial, dictGet_dictSet_self _ _ _⟩

/-- C1 witness: the three cases and the exact-boundary behavior, evaluated
at concrete inputs — a fresh session creates a run; a run idle for 100
with timeout 30 is replaced; a run idle for exactly 30 with timeout 30 is
refreshed, not expired. -/
theorem resolve_or_create_run_spec_witness :
    ((resolve_or_create_run init_state "s1" 5 7 "r1" 30 true true).2.2.1 = "r1" ∧
      (resolve_or_create_run init_state "s1" 5 7 "r1" 30 true true).2.2.2 = true ∧
      (resolve_or_create_run init_state "s1" 5 7 "r1" 30 true true).2.1 = [] ∧
      dictGet (resolve_or_create_run init_state "s1" 5 7 "r1" 30 true true).1.active_runs "s1" =
        some ⟨"r1", "s1", 5, 5, 7, 7⟩ ∧
      (resolve_or_create_run init_state "s1" 5 7 "r1" 30 true true).1.closed_runs_count =
        init_state.closed_runs_count) ∧
    ((resolve_or_create_run demoState "s1" 200 100 "r1" 30 true true).2.2.1 = "r1" ∧
      (resolve_or_create_run demoState "s1" 200 100 "r1" 30 true true).2.2.2 = true ∧
      Event.closed demoRun.run_id "timeout" ∈
        (resolve_or_create_run demoState "s1" 200 100 "r1" 30 true true).2.1 ∧
      dictGet (resolve_or_create_run demoState "s1" 200 100 "r1" 30 true true).1.active_runs "s1" =
        some ⟨"r1", "s1", 200, 200, 100, 100⟩ ∧
      (resolve_or_create_run demoState "s1" 200 100 "r1" 30 true true).1.closed_runs_count =
        demoState.closed_runs_count + 1) ∧
    ((resolve_or_create_run demoState "s1" 60 30 "r1" 30 true true).2.2.1 = demoRun.run_id ∧
      (resolve_or_create_run demoState "s1" 60 30 "r1" 30 true true).2.2.2 = false ∧
      (resolve_or_create_run demoState "s1" 60 30 "r1" 30 true true).2.1 = [] ∧
      dictGet (resolve_or_create_run demoState "s1" 60 30 "r1" 30 true true).1.active_runs "s1" =
        some { demoRun with last_seen_at := 60, last_seen_at_mono := 30 }) :=
  ⟨(resolve_or_create_run_spec init_state "s1" 5 7 "r1" 30 true true).1 (by decide),
   (resolve_or_create_run_spec demoState "s1" 200 100 "r1" 30 true true).2.1 demoRun
     (by decide) (by decide),
   (resolve_or_create_run_spec demoState "s1" 60 30 "r1" 30 true true).2.2 demoRun
     (by decide) (by decide)⟩

/-- C2: starting from the freshly constructed manager, after any sequence
of resolve, explicit-close and sweeper operations, the registry holds at
most one active run for every session id. -/
theorem at_most_one_active_run_per_session (tmo : Int) (ops : List RunOp) (sid : String) :
    ((run_ops tmo ops).active_runs.filter
      (fun p => p.2.session_id == sid)).length ≤ 1 :=
  length_filter_session_le_one _ (registryWF_run_ops tmo ops) sid

/-- C3: a cache entry whose expiry is strictly in the future is returned
unchanged with zero fetches, whatever the network would answer; hence
after a successful fetch with TTL `ttl` at `t0`, a second call strictly
before `t0 + ttl` performs no fetch, and a call at or after `t0 + ttl`
performs exactly one fetch. -/
theorem check_tracking_policy_cached :
    (∀ (cache : PolicyCache) (tool : String) (now : Int) (f : FetchOutcome)
      (cs : Bool) (e : Int),
      dictGet cache tool = some (cs, e) → now < e →
      check_tracking_policy cache tool now f = (cs, cache, 0)) ∧
    (∀ (cache : PolicyCache) (tool : String) (t0 t1 : Int) (cs : Bool) (ttl : Int)
      (f2 : FetchOutcome), cacheMissOrExpired cache tool t0 →
      (t1 < t0 + ttl →
        (check_tracking_policy
          ((check_tracking_policy cache tool t0 (.success (some cs) (some ttl))).2.1)
          tool t1 f2).2.2 = 0) ∧
      (t0 + ttl ≤ t1 →
        (check_tracking_policy
          ((check_tracking_policy cache tool t0 (.success (some cs) (some ttl))).2.1)
          tool t1 f2).2.2 = 1)) := by
  constructor
  · intro cache tool now f cs e hget hlt
    unfold check_tracking_policy
    rw [hget]
    show (if now < e then (cs, cache, 0) else fetch_and_cache cache tool now f) =
      (cs, cache, 0)
    rw [if_pos hlt]
  · intro cache tool t0 t1 cs ttl f2 hmiss
    have h1 : (check_tracking_policy cache tool t0 (.success (some cs) (some ttl))).2.1 =
        dictSet cache tool (cs, t0 + ttl) := by
      rw [check_tracking_policy_of_missOrExpired cache tool t0 _ hmiss]
      rfl
    rw [h1]
    have hget : dictGet (dictSet cache tool (cs, t0 + ttl)) tool = some (cs, t0 + ttl) :=
      dictGet_dictSet_self _ _ _
    constructor
    · intro hlt
      unfold check_tracking_policy
      rw [hget]
      show (if t1 < t0 + ttl then (cs, dictSet cache tool (cs, t0 + ttl), 0)
        else fetch_and_cache (dictSet cache tool (cs, t0 + ttl)) tool t1 f2).2.2 = 0
      rw [if_pos hlt]
    · intro hle
      unfold check_tracking_policy
      rw [hget]
      show (if t1 < t0 + ttl then (cs, dictSet cache tool (cs, t0 + ttl), 0)
        else fetch_and_cache (dictSet cache tool (cs, t0 + ttl)) tool t1 f2).2.2 = 1
      rw [if_neg (not_lt.mpr hle)]
      exact fetch_and_cache_count _ _ _ _

/-- C3 witness: the spec scenario — `(allowed=true, ttl=5)` fetched for
tool `"echo"` at time 0; a call at time 2 uses the cache with zero
fetches; a call at time 6 performs exactly one fetch. A direct cache hit
is also evaluated. -/
theorem check_tracking_policy_cached_witness :
    check_tracking_policy [("echo", (true, 10))] "echo" 2 .timedOut =
      (true, [("echo", (true, 10))], 0) ∧
    (check_tracking_policy
      ((check_tracking_policy [] "echo" 0 (.success (some true) (some 5))).2.1)
      "echo" 2 .timedOut).2.2 = 0 ∧
    (check_tracking_policy
      ((check_tracking_policy [] "echo" 0 (.success (some true) (some 5))).2.1)
      "echo" 6 (.success (some false) (some 5))).2.2 = 1 :=
  ⟨check_tracking_policy_cached.1 [("echo", (true, 10))] "echo" 2 .timedOut true 10
     (by decide) (by decide),
   (check_tracking_policy_cached.2 [] "echo" 0 2 true 5 .timedOut trivial).1 (by decide),
   (check_tracking_policy_cached.2 [] "echo" 0 6 true 5
     (.success (some false) (some 5)) trivial).2 (by decide)⟩

/-- C4: when the fetch actually runs (no live cache entry) and fails in
any way — timeout, transport error, non-2xx status, unexpected exception —
the call returns `false` and leaves the cache exactly as it was, so every
later call still performs a fetch. -/
theorem check_tracking_policy_failure (cache : PolicyCache) (tool : String)
    (now : Int) (f : FetchOutcome) (hf : f.isFailure = true)
    (hmiss : cacheMissOrExpired cache tool now) :
    check_tracking_policy cache tool now f = (false, cache, 1) ∧
    ∀ (t2 : Int) (f2 : FetchOutcome), now ≤ t2 →
      (check_tracking_policy cache tool t2 f2).2.2 = 1 := by
  constructor
  · rw [check_tracking_policy_of_missOrExpired cache tool now f hmiss]
    cases f with
    | success cs ttl => simp [FetchOutcome.isFailure] at hf
    | httpError s => rfl
    | timedOut => rfl
    | requestError => rfl
    | unexpectedError => rfl
  · intro t2 f2 hle
    have hmiss2 : cacheMissOrExpired cache tool t2 := by
      unfold cacheMissOrExpired at hmiss ⊢
      cases hget : dictGet cache tool with
      | none => trivial
      | some entry =>
        rw [hget] at hmiss
        exact le_trans hmiss hle
    rw [check_tracking_policy_of_missOrExpired cache tool t2 f2 hmiss2]
    exact fetch_and_cache_count _ _ _ _

/-- C4 witness: a fetch timeout on an empty cache returns `false`, caches
nothing, and a retry at a later instant fetches again. -/
theorem check_tracking_policy_failure_witness :
    check_tracking_policy [] "echo" 0 .timedOut = (false, [], 1) ∧
    (check_tracking_policy [] "echo" 3 .requestError).2.2 = 1 :=
  ⟨(check_tracking_policy_failure [] "echo" 0 .timedOut (by decide) trivial).1,
   (check_tracking_policy_failure [] "echo" 0 .timedOut (by decide) trivial).2 3
     .requestError (by decide)⟩

/-- C5 counterexample: a concrete sweep that closes one expired run. The
registry records the close (counter becomes 1) with internal reason
`"timeout_sweep"`, but the single run-end notification delivered to the
collaborator carries reason `"timeout"`, not `"timeout_sweep"` — the
source passes `notify_reason="timeout"` from `_sweep_expired_runs`. -/
theorem sweep_notification_reason_cex :
    (sweep_expired_runs sweepDemoState 100 50 10 true true).1.closed_runs_count = 1 ∧
    notifyReasons (sweep_expired_runs sweepDemoState 100 50 10 true true).2 =
      ["timeout"] ∧
    ("timeout" : String) ≠ "timeout_sweep" :=
  ⟨rfl, rfl, by decide⟩

/-- C5 (amended): whenever the background sweeper closes an expired run,
the close itself is recorded with reason `"timeout_sweep"`, while every
run-end notification delivered to the external trace-submission
collaborator carries the reason `"timeout"` — the same string as reactive
detection — because the sweep passes `notify_reason="timeout"`. -/
theorem sweep_close_reason_and_notify_reason (st : RunManagerState)
    (nowMono now_wall tmo : Int) (obs ok : Bool) :
    (∀ rid reason, Event.closed rid reason ∈
      (sweep_expired_runs st nowMono now_wall tmo obs ok).2 →
      reason = "timeout_sweep") ∧
    (∀ n d, Event.notified n d ∈
      (sweep_expired_runs st nowMono now_wall tmo obs ok).2 →
      n.reason = "timeout") := by
  have hall : ∀ ev ∈ (sweep_expired_runs st nowMono now_wall tmo obs ok).2,
      sweepEventOK ev := by
    unfold sweep_expired_runs
    exact sweep_foldl_events now_wall obs ok _ (st, []) (by intro ev hev; cases hev)
  constructor
  · intro rid reason hmem
    exact hall _ hmem
  · intro n d hmem
    exact hall _ hmem

/-- C5 witness: the amended claim evaluated on the concrete sweep of
`sweep_notification_reason_cex` — the close event carries
`"timeout_sweep"`, the notification carries `"timeout"`. -/
theorem sweep_close_reason_and_notify_reason_witness :
    ("timeout_sweep" : String) = "timeout_sweep" ∧
    (RunEndNotification.mk "r1" "s1" 50 "timeout").reason = "timeout" :=
  ⟨(sweep_close_reason_and_notify_reason sweepDemoState 100 50 10 true true).1
     "r1" "timeout_sweep" (by decide),
   (sweep_close_reason_and_notify_reason sweepDemoState 100 50 10 true true).2
     ⟨"r1", "s1", 50, "timeout"⟩ true (by decide)⟩

/-- C6: `close_run(run_id, reason)` returns `true` and removes the run
when an active run with that id exists, and returns `false` (it is a total
function — nothing is raised) when none exists; closing the same id twice
therefore returns `true` then `false`. -/
theorem close_run_idempotent (st : RunManagerState) (rid : String)
    (reason reason2 : String) (e e2 : Option Int) (nw nw2 : Int)
    (obs ok obs2 ok2 : Bool) (hwf : RegistryWF st.active_runs)
    (hids : runIdsNodup st.active_runs) :
    ((find_run_by_id st.active_runs rid).isSome = true →
      (close_run st rid reason e nw obs ok).2.2 = true ∧
      find_run_by_id (close_run st rid reason e nw obs ok).1.active_runs rid = none ∧
      (close_run (close_run st rid reason e nw obs ok).1 rid reason2 e2 nw2
        obs2 ok2).2.2 = false) ∧
    (find_run_by_id st.active_runs rid = none →
      close_run st rid reason e nw obs ok = (st, [], false)) := by
  constructor
  · intro hsome
    obtain ⟨run, hrun⟩ := Option.isSome_iff_exists.mp hsome
    have hstate : (close_run st rid reason e nw obs ok).1.active_runs =
        dictDel st.active_runs run.session_id := by
      unfold close_run
      rw [hrun]
      show (close_run_and_notify st run reason e nw none obs ok).1.active_runs =
        dictDel st.active_runs run.session_id
      rw [close_run_and_notify_state]
      rfl
    have hgone : find_run_by_id (close_run st rid reason e nw obs ok).1.active_runs rid =
        none := by
      rw [hstate]
      exact find_run_by_id_dictDel_none st.active_runs rid run hwf hids hrun
    refine ⟨?_, hgone, ?_⟩
    · unfold close_run
      rw [hrun]
    · rw [close_run_of_find_none _ rid reason2 e2 nw2 obs2 ok2 hgone]
  · intro hnone
    exact close_run_of_find_none st rid reason e nw obs ok hnone

/-- C6 witness: on the one-run registry, closing run `"r0"` returns `true`
and a second close of the same id returns `false`; closing an unknown id
is a pure no-op returning `false`. -/
theorem close_run_idempotent_witness :
    ((close_run demoState "r0" "explicit" none 9 true true).2.2 = true ∧
      find_run_by_id (close_run demoState "r0" "explicit" none 9 true true).1.active_runs
        "r0" = none ∧
      (close_run (close_run demoState "r0" "explicit" none 9 true true).1 "r0"
        "explicit" none 11 true true).2.2 = false) ∧
    close_run demoState "rX" "explicit" none 9 true true = (demoState, [], false) :=
  ⟨(close_run_idempotent demoState "r0" "explicit" "explicit" none none 9 11
      true true true true ⟨by decide, by decide⟩
      (by unfold runIdsNodup; decide)).1 (by decide),
   (close_run_idempotent demoState "rX" "explicit" "explicit" none none 9 11
      true true true true ⟨by decide, by decide⟩
      (by unfold runIdsNodup; decide)).2 (by decide)⟩

/-- C7: on every close, the registry mutation — removal of the run and
increment of the closed-run counter — is complete before any notification
is attempted (the event trace starts with the close record, followed only
by notification attempts), and the resulting registry state equals the
`close_run_internal` result for every combination of observer presence and
notification success, so a failed or absent notification never changes the
state and nothing propagates out of the close path. -/
theorem close_mutation_before_notify (st : RunManagerState) (run : ActiveRun)
    (reason : String) (e : Option Int) (nw : Int) (nr : Option String)
    (obs ok : Bool) :
    (close_run_and_notify st run reason e nw nr obs ok).1 = close_run_internal st run ∧
    (close_run_and_notify st run reason e nw nr obs ok).1.active_runs =
      dictDel st.active_runs run.session_id ∧
    (close_run_and_notify st run reason e nw nr obs ok).1.closed_runs_count =
      st.closed_runs_count + 1 ∧
    ∃ tail, (close_run_and_notify st run reason e nw nr obs ok).2 =
        Event.closed run.run_id reason :: tail ∧
      ∀ ev ∈ tail, ∃ n d, ev = Event.notified n d := by
  refine ⟨close_run_and_notify_state st run reason e nw nr obs ok, ?_, ?_, ?_⟩
  · rw [close_run_and_notify_state]
    rfl
  · rw [close_run_and_notify_state]
    rfl
  · rw [close_run_and_notify_events]
    cases obs with
    | false =>
      refine ⟨[], rfl, ?_⟩
      intro ev hev
      cases hev
    | true =>
      refine ⟨[Event.notified ⟨run.run_id, run.session_id, e.getD nw,
        orElseStr nr reason⟩ ok], rfl, ?_⟩
      intro ev hev
      simp at hev
      exact ⟨_, _, hev⟩

/-- C8: along any chronologically ordered single-session sequence of
`resolve_or_create_run` calls starting from the fresh manager, the
last-activity timestamps stored for the session — both wall-clock and
monotonic — are non-decreasing from any earlier call to any later call. -/
theorem last_seen_monotone (sid : String) (tmo : Int) (obs ok : Bool)
    (l1 : List ResolveCall) (c1 : ResolveCall) (l2 : List ResolveCall)
    (c2 : ResolveCall) (l3 : List ResolveCall)
    (hmono : stampsMono ((l1 ++ c1 :: l2) ++ c2 :: l3)) (a b : Int × Int)
    (ha : lastSeenAfter sid tmo obs ok (l1 ++ [c1]) = some a)
    (hb : lastSeenAfter sid tmo obs ok ((l1 ++ c1 :: l2) ++ [c2]) = some b) :
    a.1 ≤ b.1 ∧ a.2 ≤ b.2 := by
  rw [lastSeenAfter_append] at ha hb
  have hc12 : c1.timestamp ≤ c2.timestamp ∧ c1.nowMono ≤ c2.nowMono := by
    unfold stampsMono at hmono
    rw [List.pairwise_append] at hmono
    exact hmono.2.2 c1 (List.mem_append_right l1 (List.mem_cons_self c1 l2)) c2
      (List.mem_cons_self c2 l3)
  have ha' : a = (c1.timestamp, c1.nowMono) := (Option.some_injective _ ha).symm
  have hb' : b = (c2.timestamp, c2.nowMono) := (Option.some_injective _ hb).symm
  rw [ha', hb']
  exact hc12

/-- C8 witness: two calls at wall-clock times 0 then 5 with monotonic
readings 0 then 6 give non-decreasing stored last-activity stamps. -/
theorem last_seen_monotone_witness : (0 : Int) ≤ 5 ∧ (0 : Int) ≤ 6 :=
  last_seen_monotone "s1" 30 true true [] ⟨0, 0, "r1"⟩ [] ⟨5, 6, "r2"⟩ []
    (by unfold stampsMono; simp) (0, 0) (5, 6) (by decide) (by decide)

/-- C9 (evaluation at the failing input): when the wrapped function raises
`"ValueError"`, the async wrapper submits the failed-call record (awaited)
and re-raises the same exception; the sync wrapper re-raises the same
exception but its `record_call` is only a coroutine that is never awaited,
so no telemetry is submitted before the exception propagates. -/
theorem sync_wrapper_error_drops_telemetry :
    async_wrapper_run (Except.error "ValueError") =
      (Except.error "ValueError", [WrapEvent.record_call_awaited (some "ValueError")]) ∧
    sync_wrapper_run (Except.error "ValueError") true =
      (Except.error "ValueError",
        [WrapEvent.record_call_not_awaited (some "ValueError")]) :=
  ⟨rfl, rfl⟩

/-- C10: on the refresh path (an active, non-expired run exists), only the
two last-activity fields of the run change — its id, session, and both
creation timestamps are untouched — no close event fires, the closed-run
counter is unchanged, every other session maps to exactly what it did
before, and the session keys of the registry are unchanged. -/
theorem resolve_refresh_frame (st : RunManagerState) (sid : String)
    (ts mono : Int) (fid : String) (tmo : Int) (obs ok : Bool) (run : ActiveRun)
    (hget : dictGet st.active_runs sid = some run)
    (hnot : mono - run.last_seen_at_mono ≤ tmo) :
    (resolve_or_create_run st sid ts mono fid tmo obs ok).2.2.1 = run.run_id ∧
    (resolve_or_create_run st sid ts mono fid tmo obs ok).2.2.2 = false ∧
    (resolve_or_create_run st sid ts mono fid tmo obs ok).2.1 = [] ∧
    (resolve_or_create_run st sid ts mono fid tmo obs ok).1.closed_runs_count =
      st.closed_runs_count ∧
    dictGet (resolve_or_create_run st sid ts mono fid tmo obs ok).1.active_runs sid =
      some ⟨run.run_id, run.session_id, run.started_at, ts, run.started_at_mono, mono⟩ ∧
    (∀ sid2, sid2 ≠ sid →
      dictGet (resolve_or_create_run st sid ts mono fid tmo obs ok).1.active_runs sid2 =
        dictGet st.active_runs sid2) ∧
    (resolve_or_create_run st sid ts mono fid tmo obs ok).1.active_runs.map Prod.fst =
      st.active_runs.map Prod.fst := by
  have hb : run.is_timed_out tmo mono = false := by
    simp only [ActiveRun.is_timed_out, decide_eq_false_iff_not]
    exact not_lt.mpr hnot
  simp only [resolve_or_create_run, hget, hb, if_false, Bool.false_eq_true]
  refine ⟨by trivial, by trivial, by trivial, by trivial, ?_, ?_, ?_⟩
  · exact dictGet_dictSet_self _ _ _
  · intro sid2 hne
    exact dictGet_dictSet_ne _ _ _ _ hne
  · exact map_fst_dictSet_of_get st.active_runs sid _ run hget

/-- C10 witness: refreshing the one-run registry at wall-clock 60 and
monotonic 20 keeps the run identity, creation stamps, counter and key set,
and rewrites only the last-activity fields. -/
theorem resolve_refresh_frame_witness :
    (resolve_or_create_run demoState "s1" 60 20 "r9" 30 true true).2.2.1 =
      demoRun.run_id ∧
    (resolve_or_create_run demoState "s1" 60 20 "r9" 30 true true).2.2.2 = false ∧
    (resolve_or_create_run demoState "s1" 60 20 "r9" 30 true true).2.1 = [] ∧
    (resolve_or_create_run demoState "s1" 60 20 "r9" 30 true true).1.closed_runs_count =
      demoState.closed_runs_count ∧
    dictGet (resolve_or_create_run demoState "s1" 60 20 "r9" 30 true true).1.active_runs
      "s1" = some ⟨demoRun.run_id, demoRun.session_id, demoRun.started_at, 60,
        demoRun.started_at_mono, 20⟩ ∧
    (∀ sid2, sid2 ≠ "s1" →
      dictGet (resolve_or_create_run demoState "s1" 60 20 "r9" 30 true true).1.active_runs
        sid2 = dictGet demoState.active_runs sid2) ∧
    (resolve_or_create_run demoState "s1" 60 20 "r9" 30 true true).1.active_runs.map
      Prod.fst = demoState.active_runs.map Prod.fst :=
  resolve_refresh_frame demoState "s1" 60 20 "r9" 30 true true demoRun
    (by decide) (by decide)

end MCPObs
